import Mathlib

/-!
Shallow embedding of `src/xt-keyboard-adapter.ino`.

The sketch has two routines sharing two volatile globals:

* `clock_isr` (the Frame Sampler): on each falling clock edge it samples the
  data pin, shifts the bit into a `uint16_t` register, and after 10 bits
  publishes the frame into `volatile unsigned int c_data` and increments
  `volatile int ctr`.
* `loop` (the Key Event Processor): busy-waits until `ctr` differs from its
  static `cctr`, then decodes `c_data`, updates the modifier state
  `curr_mod`, and emits USB reports.

The translation tables (`xt_kb_map`, `xt_kb_modmap`) pair concrete XT scan
codes with keycode constants (`KEY_A`, `MODIFIERKEY_LEFT_CTRL`, ...) that come
from the external Teensy header `usb_keyboard.h`, which is not part of this
repository.  We therefore parameterize the embedding over an environment
`KeyEnv` giving the numeric value stored in each table slot, and prove the
claims for every environment.

Machine integers are modelled as `Nat` with explicit wrapping where the C
width can matter: the `uint16_t` shift register wraps at `2 ^ 16`, the
`uint32_t` bit counter wraps at `2 ^ 32`, and the `uint8_t` local `keyname`
truncates its initializer modulo `256`.  `curr_mod &= ~n` is embedded
width-independently as `cm ^^^ (cm &&& n)`: for every promotion width wide
enough to hold `cm` the C expression clears exactly the bits of `n` that are
set in `cm`, which is what the XOR/AND form computes.  `ctr` is a C `int`
incremented once per frame; its two's-complement wraparound (after `2 ^ 31`
frames) is beyond every claim, so it is modelled as an unbounded `Nat`.

Each routine additionally returns the list of its accesses to the shared
variables `c_data`, `ctr` and `cctr`, in program order (`SEv` events), so
that ordering claims about the handoff are statable; `volatile` makes every
syntactic access a real load/store, so one event is recorded per access.
-/

/-- The numeric values of the external keycode constants used in the two
translation tables, as stored in the table slot (`KEYCODE_TYPE`).  They are
data supplied by `usb_keyboard.h`, outside this repository. -/
structure KeyEnv where
  KEY_F6 : Nat
  KEY_D : Nat
  KEY_Q : Nat
  KEYPAD_2 : Nat
  KEY_B : Nat
  KEY_7 : Nat
  KEYPAD_8 : Nat
  KEY_QUOTE : Nat
  KEY_O : Nat
  KEY_3 : Nat
  KEY_F10 : Nat
  KEY_J : Nat
  KEY_T : Nat
  KEY_PERIOD : Nat
  KEY_MINUS : Nat
  KEYPAD_5 : Nat
  KEY_Z : Nat
  KEY_ENTER : Nat
  KEY_F2 : Nat
  KEY_1 : Nat
  KEY_F8 : Nat
  KEY_G : Nat
  KEY_E : Nat
  KEYPAD_0 : Nat
  KEY_M : Nat
  KEY_9 : Nat
  KEYPAD_MINUS : Nat
  KEY_LEFT_BRACE : Nat
  KEY_CAPS_LOCK : Nat
  KEY_5 : Nat
  KEY_SCROLL_LOCK : Nat
  KEY_L : Nat
  KEY_U : Nat
  KEY_BACKSPACE : Nat
  KEYPAD_PLUS : Nat
  KEY_C : Nat
  KEY_A : Nat
  KEY_F4 : Nat
  KEY_ESC : Nat
  KEY_F7 : Nat
  KEY_F : Nat
  KEY_W : Nat
  KEYPAD_3 : Nat
  KEY_N : Nat
  KEY_8 : Nat
  KEYPAD_9 : Nat
  KEY_BACKSLASH : Nat
  KEY_P : Nat
  KEY_SPACE : Nat
  KEY_4 : Nat
  KEY_NUM_LOCK : Nat
  KEY_K : Nat
  KEY_Y : Nat
  KEY_SLASH : Nat
  KEY_EQUAL : Nat
  KEYPAD_6 : Nat
  KEY_X : Nat
  KEY_F3 : Nat
  KEY_2 : Nat
  KEY_F9 : Nat
  KEY_H : Nat
  KEY_R : Nat
  KEYPAD_PERIOD : Nat
  KEY_COMMA : Nat
  KEY_0 : Nat
  KEYPAD_4 : Nat
  KEY_RIGHT_BRACE : Nat
  KEY_F1 : Nat
  KEY_6 : Nat
  KEYPAD_7 : Nat
  KEY_SEMICOLON : Nat
  KEY_I : Nat
  KEY_PRINTSCREEN : Nat
  KEY_TAB : Nat
  KEYPAD_1 : Nat
  KEY_V : Nat
  KEY_S : Nat
  KEY_F5 : Nat
  MODIFIERKEY_LEFT_ALT : Nat
  MODIFIERKEY_RIGHT_SHIFT : Nat
  MODIFIERKEY_LEFT_CTRL : Nat
  MODIFIERKEY_LEFT_SHIFT : Nat

/-- `xt_kb_map` (source line 29): the regular translation table, in source
order, as `(old scan code, keycode value)` pairs. -/
def xt_kb_map (k : KeyEnv) : List (Nat × Nat) :=
  [(0x102, k.KEY_F6), (0x104, k.KEY_D), (0x108, k.KEY_Q), (0x10A, k.KEYPAD_2),
   (0x10C, k.KEY_B), (0x110, k.KEY_7), (0x112, k.KEYPAD_8), (0x114, k.KEY_QUOTE),
   (0x118, k.KEY_O), (0x120, k.KEY_3), (0x122, k.KEY_F10), (0x124, k.KEY_J),
   (0x128, k.KEY_T), (0x12C, k.KEY_PERIOD), (0x130, k.KEY_MINUS), (0x132, k.KEYPAD_5),
   (0x134, k.KEY_Z), (0x138, k.KEY_ENTER), (0x13C, k.KEY_F2), (0x140, k.KEY_1),
   (0x142, k.KEY_F8), (0x144, k.KEY_G), (0x148, k.KEY_E), (0x14A, k.KEYPAD_0),
   (0x14C, k.KEY_M), (0x150, k.KEY_9), (0x152, k.KEYPAD_MINUS), (0x158, k.KEY_LEFT_BRACE),
   (0x15C, k.KEY_CAPS_LOCK), (0x160, k.KEY_5), (0x162, k.KEY_SCROLL_LOCK), (0x164, k.KEY_L),
   (0x168, k.KEY_U), (0x170, k.KEY_BACKSPACE), (0x172, k.KEYPAD_PLUS), (0x174, k.KEY_C),
   (0x178, k.KEY_A), (0x17C, k.KEY_F4), (0x180, k.KEY_ESC), (0x182, k.KEY_F7),
   (0x184, k.KEY_F), (0x188, k.KEY_W), (0x18A, k.KEYPAD_3), (0x18C, k.KEY_N),
   (0x190, k.KEY_8), (0x192, k.KEYPAD_9), (0x194, k.KEY_BACKSLASH), (0x198, k.KEY_P),
   (0x19C, k.KEY_SPACE), (0x1A0, k.KEY_4), (0x1A2, k.KEY_NUM_LOCK), (0x1A4, k.KEY_K),
   (0x1A8, k.KEY_Y), (0x1AC, k.KEY_SLASH), (0x1B0, k.KEY_EQUAL), (0x1B2, k.KEYPAD_6),
   (0x1B4, k.KEY_X), (0x1BC, k.KEY_F3), (0x1C0, k.KEY_2), (0x1C2, k.KEY_F9),
   (0x1C4, k.KEY_H), (0x1C8, k.KEY_R), (0x1CA, k.KEYPAD_PERIOD), (0x1CC, k.KEY_COMMA),
   (0x1D0, k.KEY_0), (0x1D2, k.KEYPAD_4), (0x1D4, 0), (0x1D8, k.KEY_RIGHT_BRACE),
   (0x1DC, k.KEY_F1), (0x1E0, k.KEY_6), (0x1E2, k.KEYPAD_7), (0x1E4, k.KEY_SEMICOLON),
   (0x1E8, k.KEY_I), (0x1EC, k.KEY_PRINTSCREEN), (0x1F0, k.KEY_TAB), (0x1F2, k.KEYPAD_1),
   (0x1F4, k.KEY_V), (0x1F8, k.KEY_S), (0x1FC, k.KEY_F5)]

/-- `xt_kb_modmap` (source line 33): the modifier translation table, in
source order. -/
def xt_kb_modmap (k : KeyEnv) : List (Nat × Nat) :=
  [(0x11C, k.MODIFIERKEY_LEFT_ALT), (0x16C, k.MODIFIERKEY_RIGHT_SHIFT),
   (0x1B8, k.MODIFIERKEY_LEFT_CTRL), (0x154, k.MODIFIERKEY_LEFT_SHIFT)]

/-- Calls into the external USB/HID transport (`Keyboard.*`), recorded in
order of emission. -/
inductive UsbCall where
  | set_modifier (v : Nat)
  | set_key1 (v : Nat)
  | send_now
  deriving DecidableEq, BEq

/-- Accesses to the shared variables `c_data`, `ctr`, `cctr`, in program
order.  `readCData`/`writeCData` are loads/stores of `c_data`, `incCtr` is
the `ctr++` in the sampler, `readCtr` a load of `ctr` in the processor and
`writeCctr` the store to the processor's last-seen counter `cctr`. -/
inductive SEv where
  | writeCData
  | incCtr
  | readCtr
  | readCData
  | writeCctr
  deriving DecidableEq, BEq

/-- `bool release = c_data & 1` (line 81): the release flag of a frame. -/
def releaseFlag (cd : Nat) : Nat := cd &&& 1

/-- `c_data & 0xffe` (lines 85 and 99): the scan code used as lookup key in
both tables. -/
def scanCode (cd : Nat) : Nat := cd &&& 0xffe

/-- The modifier-table loop (lines 84–91): every entry whose `old` field
equals the key updates `curr_mod` (`&= ~n` on release, `|= n` on press);
there is no early exit.  Returns the final `curr_mod` together with the
shared-variable accesses of the loop (one `c_data` load per iteration, for
the comparison against `c_data & 0xffe`). -/
def modScan (release : Bool) (key : Nat) : List (Nat × Nat) → Nat → Nat × List SEv
  | [], cm => (cm, [])
  | (o, n) :: rest, cm =>
    let cm2 := if o = key then (if release then cm ^^^ (cm &&& n) else cm ||| n) else cm
    let p := modScan release key rest cm2
    (p.fst, SEv.readCData :: p.snd)

/-- The regular-table loop (lines 103–108): return the `n` field of the
first entry whose `old` field equals the key, then `break`; `none` if no
entry matches.  Also returns one `c_data` load per executed comparison. -/
def regScan (key : Nat) : List (Nat × Nat) → Option Nat × List SEv
  | [] => (none, [])
  | (o, n) :: rest =>
    if o = key then (some n, [SEv.readCData])
    else
      let p := regScan key rest
      (p.fst, SEv.readCData :: p.snd)

/-- `uint8_t keyname` after the regular-table loop (lines 100–108): the `n`
field of the first matching entry truncated to 8 bits by the `uint8_t`
assignment, or the initializer `0` if no entry matches. -/
def keynameOf (k : KeyEnv) (key : Nat) : Nat :=
  match (regScan key (xt_kb_map k)).fst with
  | some n => n % 256
  | none => 0

/-- Result of one `loop()` iteration after the busy-wait has exited. -/
structure ProcResult where
  c_data : Nat
  cctr : Nat
  curr_mod : Nat
  calls : List UsbCall
  events : List SEv
  deriving DecidableEq

/-- One iteration of `loop()` (lines 73–116), entered when the busy-wait
`while (cctr == ctr);` has just observed `ctr ≠ cctr`.  `ctr` is the value
of the shared counter, `cd` the value of the shared `c_data`, `cm` the
processor-owned `curr_mod`.  The event trace starts with the wait's final
load of `ctr`, then line 79 (`cctr = ctr`: one load of `ctr`, one store to
`cctr`), then line 81's load of `c_data`. -/
def processFrame (k : KeyEnv) (ctr cd cm : Nat) : ProcResult :=
  let release : Bool := releaseFlag cd != 0
  let ms := modScan release (scanCode cd) (xt_kb_modmap k) cm
  let cm2 := ms.fst
  let callsMod : List UsbCall := [UsbCall.set_modifier (cm2 &&& 0xff), UsbCall.send_now]
  let evPre : List SEv :=
    [SEv.readCtr, SEv.readCtr, SEv.writeCctr, SEv.readCData] ++ ms.snd
  if release then
    { c_data := cd, cctr := ctr, curr_mod := cm2, calls := callsMod, events := evPre }
  else
    let cd2 := scanCode cd
    let rs := regScan cd2 (xt_kb_map k)
    let keyname : Nat := keynameOf k cd2
    let callsKey : List UsbCall :=
      if keyname ≠ 0 then
        [UsbCall.set_key1 keyname, UsbCall.send_now, UsbCall.set_key1 0, UsbCall.send_now]
      else []
    { c_data := cd2, cctr := ctr, curr_mod := cm2,
      calls := callsMod ++ callsKey,
      events := evPre ++ [SEv.readCData, SEv.writeCData] ++ rs.snd }

/-- The sampler's persistent state: the static locals `r_len` (`uint32_t`)
and `data` (`uint16_t`) of `clock_isr`, the shared globals `c_data` and
`ctr`, and the LED output. -/
structure SamplerState where
  r_len : Nat
  data : Nat
  c_data : Nat
  ctr : Nat
  led : Bool
  deriving DecidableEq

/-- Result of one `clock_isr` invocation: the new state, the frame published
in this invocation (if any), and the accesses to the shared variables. -/
structure SamplerResult where
  state : SamplerState
  published : Option Nat
  events : List SEv
  deriving DecidableEq

/-- `clock_isr` (lines 38–57) for one falling clock edge, `pin` being the
value read from the data pin.  `data <<= 1` wraps at `2 ^ 16` (`uint16_t`),
`r_len ++` at `2 ^ 32` (`uint32_t`). -/
def clock_isr (s : SamplerState) (pin : Nat) : SamplerResult :=
  let data1 := (s.data * 2) % 65536
  let data2 := data1 ||| (pin &&& 1)
  let rlen1 := (s.r_len + 1) % 4294967296
  let led1 := if rlen1 = 1 then true else s.led
  if rlen1 = 10 then
    { state := { r_len := 0, data := 0, c_data := data2, ctr := s.ctr + 1, led := false },
      published := some data2,
      events := [SEv.writeCData, SEv.incCtr] }
  else
    { state := { r_len := rlen1, data := data2, c_data := s.c_data, ctr := s.ctr, led := led1 },
      published := none,
      events := [] }

/-- Iterate `clock_isr` over a list of data-pin samples, collecting every
published frame in order. -/
def runSampler (s : SamplerState) : List Nat → SamplerState × List Nat
  | [] => (s, [])
  | pin :: rest =>
    let r := clock_isr s pin
    let p := runSampler r.state rest
    (p.fst, (match r.published with | some v => [v] | none => []) ++ p.snd)

/-- The key-report calls (`set_key1`) among a call list. -/
def keyCalls (cs : List UsbCall) : List UsbCall :=
  cs.filter fun c => match c with | UsbCall.set_key1 _ => true | _ => false

/-- Run the processor over a sequence of completed frames, threading
`curr_mod` (the only state that persists across frames). -/
def runFrames (k : KeyEnv) : List Nat → Nat → Nat
  | [], cm => cm
  | cd :: rest, cm => runFrames k rest (processFrame k 0 cd cm).curr_mod

/-- The bitwise OR of the four modifier-table values. -/
def modUnion (k : KeyEnv) : Nat :=
  k.MODIFIERKEY_LEFT_ALT ||| k.MODIFIERKEY_RIGHT_SHIFT |||
  k.MODIFIERKEY_LEFT_CTRL ||| k.MODIFIERKEY_LEFT_SHIFT

/-- A concrete environment used to instantiate universally quantified
theorems at specific inputs.  The modifier values are single bits, like the
real `MODIFIERKEY_*` constants; the regular values are distinct non-zero
bytes. -/
def envEx : KeyEnv where
  KEY_F6 := 63
  KEY_D := 7
  KEY_Q := 20
  KEYPAD_2 := 90
  KEY_B := 5
  KEY_7 := 36
  KEYPAD_8 := 96
  KEY_QUOTE := 52
  KEY_O := 18
  KEY_3 := 32
  KEY_F10 := 67
  KEY_J := 13
  KEY_T := 23
  KEY_PERIOD := 55
  KEY_MINUS := 45
  KEYPAD_5 := 93
  KEY_Z := 29
  KEY_ENTER := 40
  KEY_F2 := 59
  KEY_1 := 30
  KEY_F8 := 65
  KEY_G := 10
  KEY_E := 8
  KEYPAD_0 := 98
  KEY_M := 16
  KEY_9 := 38
  KEYPAD_MINUS := 86
  KEY_LEFT_BRACE := 47
  KEY_CAPS_LOCK := 57
  KEY_5 := 34
  KEY_SCROLL_LOCK := 71
  KEY_L := 15
  KEY_U := 24
  KEY_BACKSPACE := 42
  KEYPAD_PLUS := 87
  KEY_C := 6
  KEY_A := 4
  KEY_F4 := 61
  KEY_ESC := 41
  KEY_F7 := 64
  KEY_F := 9
  KEY_W := 26
  KEYPAD_3 := 91
  KEY_N := 17
  KEY_8 := 37
  KEYPAD_9 := 97
  KEY_BACKSLASH := 49
  KEY_P := 19
  KEY_SPACE := 44
  KEY_4 := 33
  KEY_NUM_LOCK := 83
  KEY_K := 14
  KEY_Y := 28
  KEY_SLASH := 56
  KEY_EQUAL := 46
  KEYPAD_6 := 94
  KEY_X := 27
  KEY_F3 := 60
  KEY_2 := 31
  KEY_F9 := 66
  KEY_H := 11
  KEY_R := 21
  KEYPAD_PERIOD := 99
  KEY_COMMA := 54
  KEY_0 := 39
  KEYPAD_4 := 92
  KEY_RIGHT_BRACE := 48
  KEY_F1 := 58
  KEY_6 := 35
  KEYPAD_7 := 95
  KEY_SEMICOLON := 51
  KEY_I := 12
  KEY_PRINTSCREEN := 70
  KEY_TAB := 43
  KEYPAD_1 := 89
  KEY_V := 25
  KEY_S := 22
  KEY_F5 := 62
  MODIFIERKEY_LEFT_ALT := 4
  MODIFIERKEY_RIGHT_SHIFT := 32
  MODIFIERKEY_LEFT_CTRL := 1
  MODIFIERKEY_LEFT_SHIFT := 2

/-! ## Helper lemmas -/

lemma two_cases (n : Nat) (h : n < 2) : n = 0 ∨ n = 1 := by omega

lemma releaseFlag_cases (cd : Nat) : releaseFlag cd = 0 ∨ releaseFlag cd = 1 := by
  have := Nat.and_one_is_mod cd
  unfold releaseFlag
  omega

/-- Unfolding of a processor iteration on a release frame. -/
lemma processFrame_release (k : KeyEnv) (ctr cd cm : Nat) (h : releaseFlag cd = 1) :
    processFrame k ctr cd cm =
      { c_data := cd, cctr := ctr,
        curr_mod := (modScan true (scanCode cd) (xt_kb_modmap k) cm).fst,
        calls := [UsbCall.set_modifier
                    ((modScan true (scanCode cd) (xt_kb_modmap k) cm).fst &&& 0xff),
                  UsbCall.send_now],
        events := [SEv.readCtr, SEv.readCtr, SEv.writeCctr, SEv.readCData] ++
                  (modScan true (scanCode cd) (xt_kb_modmap k) cm).snd } := by
  unfold processFrame
  rw [h]
  rfl

/-- Unfolding of a processor iteration on a press frame. -/
lemma processFrame_press (k : KeyEnv) (ctr cd cm : Nat) (h : releaseFlag cd = 0) :
    processFrame k ctr cd cm =
      { c_data := scanCode cd, cctr := ctr,
        curr_mod := (modScan false (scanCode cd) (xt_kb_modmap k) cm).fst,
        calls := [UsbCall.set_modifier
                    ((modScan false (scanCode cd) (xt_kb_modmap k) cm).fst &&& 0xff),
                  UsbCall.send_now] ++
                 (if keynameOf k (scanCode cd) ≠ 0 then
                    [UsbCall.set_key1 (keynameOf k (scanCode cd)), UsbCall.send_now,
                     UsbCall.set_key1 0, UsbCall.send_now]
                  else []),
        events := ([SEv.readCtr, SEv.readCtr, SEv.writeCctr, SEv.readCData] ++
                   (modScan false (scanCode cd) (xt_kb_modmap k) cm).snd) ++
                  [SEv.readCData, SEv.writeCData] ++
                  (regScan (scanCode cd) (xt_kb_map k)).snd } := by
  unfold processFrame
  rw [h]
  rfl

/-- If the key matches no entry of the table, the modifier loop leaves
`curr_mod` unchanged. -/
lemma modScan_no_match (rel : Bool) (key : Nat) (t : List (Nat × Nat)) (cm : Nat)
    (h : key ∉ t.map Prod.fst) : (modScan rel key t cm).fst = cm := by
  induction t generalizing cm with
  | nil => rfl
  | cons p rest ih =>
    obtain ⟨o, n⟩ := p
    simp only [List.map_cons, List.mem_cons] at h
    push_neg at h
    simp only [modScan]
    rw [if_neg (fun hk => h.1 hk.symm)]
    exact ih cm h.2

/-- Bit-level reading of `curr_mod &= ~n`. -/
lemma testBit_clear (cm n i : Nat) :
    (cm ^^^ (cm &&& n)).testBit i = (cm.testBit i && !(n.testBit i)) := by
  rw [Nat.testBit_xor, Nat.testBit_land]
  cases hcm : cm.testBit i <;> cases hn : n.testBit i <;> rfl

/-- Appending a bit to an even number by `|` is addition. -/
lemma two_mul_lor_bit (a b : Nat) (hb : b < 2) : (2 * a) ||| b = 2 * a + b := by
  rcases two_cases b hb with rfl | rfl
  · simp
  · have hm : ((2 * a) ||| 1) % 2 = 1 := by
      rw [Nat.or_mod_two_eq_one]
      right
      rfl
    have hd : ((2 * a) ||| 1) / 2 = a := by
      rw [Nat.or_div_two]
      have h1 : 2 * a / 2 = a := by omega
      have h2 : (1 : Nat) / 2 = 0 := rfl
      rw [h1, h2, Nat.or_zero]
    omega

/-- A non-completing `clock_isr` invocation: bit count goes up by one, the
sampled bit is shifted in, the shared variables are untouched. -/
lemma clock_isr_step (s : SamplerState) (b : Nat) (hb : b < 2) (hr : s.r_len + 1 < 10)
    (hd : s.data < 16384) :
    clock_isr s b =
      { state := { r_len := s.r_len + 1, data := 2 * s.data + b, c_data := s.c_data,
                   ctr := s.ctr, led := if s.r_len + 1 = 1 then true else s.led },
        published := none, events := [] } := by
  simp only [clock_isr]
  have hmod32 : (s.r_len + 1) % 4294967296 = s.r_len + 1 := Nat.mod_eq_of_lt (by omega)
  have hmod16 : s.data * 2 % 65536 = s.data * 2 := Nat.mod_eq_of_lt (by omega)
  have hb1 : b &&& 1 = b := by
    rw [Nat.and_one_is_mod]
    exact Nat.mod_eq_of_lt hb
  rw [hmod32, hmod16, hb1]
  have hlor : s.data * 2 ||| b = 2 * s.data + b := by
    rw [Nat.mul_comm]
    exact two_mul_lor_bit s.data b hb
  rw [hlor]
  rw [if_neg (by omega : ¬ (s.r_len + 1 = 10))]

/-- The frame-completing `clock_isr` invocation (10th bit): it stores the
assembled frame in `c_data`, increments `ctr`, and resets its state. -/
lemma clock_isr_publish (s : SamplerState) (b : Nat) (hb : b < 2) (hr : s.r_len = 9)
    (hd : s.data < 16384) :
    clock_isr s b =
      { state := { r_len := 0, data := 0, c_data := 2 * s.data + b, ctr := s.ctr + 1,
                   led := false },
        published := some (2 * s.data + b),
        events := [SEv.writeCData, SEv.incCtr] } := by
  simp only [clock_isr, hr]
  have hmod16 : s.data * 2 % 65536 = s.data * 2 := Nat.mod_eq_of_lt (by omega)
  have hb1 : b &&& 1 = b := by
    rw [Nat.and_one_is_mod]
    exact Nat.mod_eq_of_lt hb
  rw [hmod16, hb1]
  have hlor : s.data * 2 ||| b = 2 * s.data + b := by
    rw [Nat.mul_comm]
    exact two_mul_lor_bit s.data b hb
  rw [hlor]
  norm_num

/-- `runSampler` distributes over list append. -/
lemma runSampler_append (xs ys : List Nat) (s : SamplerState) :
    runSampler s (xs ++ ys) =
      ((runSampler (runSampler s xs).fst ys).fst,
       (runSampler s xs).snd ++ (runSampler (runSampler s xs).fst ys).snd) := by
  induction xs generalizing s with
  | nil => simp [runSampler]
  | cons p rest ih =>
    simp only [List.cons_append, runSampler, List.append_eq]
    rw [ih]
    simp [List.append_assoc]

/-- Running the sampler over up to 8 further bits of an in-progress frame
(bit count already ≥ 1) publishes nothing and accumulates the bits into the
shift register. -/
lemma runSampler_no_publish (bits : List Nat) : ∀ s : SamplerState,
    (∀ b ∈ bits, b < 2) → 1 ≤ s.r_len → s.r_len + bits.length ≤ 9 →
    s.data < 2 ^ (14 - bits.length) →
    runSampler s bits =
      ({ r_len := s.r_len + bits.length,
         data := bits.foldl (fun a b => 2 * a + b) s.data,
         c_data := s.c_data, ctr := s.ctr, led := s.led }, []) := by
  induction bits with
  | nil =>
    intro s _ _ _ _
    simp [runSampler]
  | cons b rest ih =>
    intro s hb h1 h9 hd
    simp only [List.length_cons] at h9 hd
    have hblt : b < 2 := hb b (List.mem_cons_self b rest)
    have hdstep : s.data < 16384 := by
      have hle : (2 : Nat) ^ (14 - (rest.length + 1)) ≤ 2 ^ 14 :=
        Nat.pow_le_pow_right (by omega) (by omega)
      have h14 : (2 : Nat) ^ 14 = 16384 := by norm_num
      omega
    simp only [runSampler]
    rw [clock_isr_step s b hblt (by omega) hdstep]
    rw [if_neg (by omega : ¬ (s.r_len + 1 = 1))]
    have hdata : 2 * s.data + b < 2 ^ (14 - rest.length) := by
      have hexp : 14 - rest.length = (14 - (rest.length + 1)) + 1 := by omega
      rw [hexp, pow_succ]
      omega
    rw [ih { r_len := s.r_len + 1, data := 2 * s.data + b, c_data := s.c_data,
             ctr := s.ctr, led := s.led }
          (fun x hx => hb x (List.mem_cons_of_mem b hx)) (by dsimp only; omega)
          (by dsimp only; omega) hdata]
    simp only [List.foldl_cons, List.nil_append, List.length_cons, Prod.mk.injEq,
               SamplerState.mk.injEq, and_true, true_and]
    omega

/-- Accumulating `len` bits multiplies the bound by `2 ^ len`. -/
lemma foldl_bits_lt (bits : List Nat) : ∀ (m a : Nat), (∀ b ∈ bits, b < 2) → a < 2 ^ m →
    bits.foldl (fun x b => 2 * x + b) a < 2 ^ (m + bits.length) := by
  induction bits with
  | nil =>
    intro m a _ ha
    simpa using ha
  | cons b rest ih =>
    intro m a hb ha
    have hblt : b < 2 := hb b (List.mem_cons_self b rest)
    simp only [List.foldl, List.length_cons]
    have h2 : 2 * a + b < 2 ^ (m + 1) := by
      rw [pow_succ]
      omega
    have hrec := ih (m + 1) (2 * a + b) (fun x hx => hb x (List.mem_cons_of_mem b hx)) h2
    have harith : m + 1 + rest.length = m + (rest.length + 1) := by omega
    rw [harith] at hrec
    exact hrec

set_option maxRecDepth 4096 in
/-- For every even frame value below `2 ^ 10`, masking with `0xffe` is the
identity. -/
lemma even_land_ffe : ∀ cd : Nat, cd < 1024 → (releaseFlag cd = 0 → scanCode cd = cd) := by
  decide

/-! ## Claim theorems -/

/-- C3: starting from an empty frame register (bit count 0, register 0),
feeding any 10 data bits one per clock edge publishes exactly one Completed
Frame, whose value is the 10 bits read as a big-endian integer, increments
the Event Counter exactly once, and resets the bit count and shift register
to zero (and clears the LED). -/
theorem sampler_ten_bits (b0 b1 b2 b3 b4 b5 b6 b7 b8 b9 : Nat)
    (h0 : b0 < 2) (h1 : b1 < 2) (h2 : b2 < 2) (h3 : b3 < 2) (h4 : b4 < 2)
    (h5 : b5 < 2) (h6 : b6 < 2) (h7 : b7 < 2) (h8 : b8 < 2) (h9 : b9 < 2)
    (cd0 ctr0 : Nat) (led0 : Bool) :
    runSampler { r_len := 0, data := 0, c_data := cd0, ctr := ctr0, led := led0 }
        [b0, b1, b2, b3, b4, b5, b6, b7, b8, b9] =
      ({ r_len := 0, data := 0,
         c_data := [b0, b1, b2, b3, b4, b5, b6, b7, b8, b9].foldl (fun a b => 2 * a + b) 0,
         ctr := ctr0 + 1, led := false },
       [[b0, b1, b2, b3, b4, b5, b6, b7, b8, b9].foldl (fun a b => 2 * a + b) 0]) := by
  have hmid : ∀ b ∈ [b1, b2, b3, b4, b5, b6, b7, b8], b < 2 := by
    intro b hb
    simp only [List.mem_cons, List.not_mem_nil, or_false] at hb
    rcases hb with rfl | rfl | rfl | rfl | rfl | rfl | rfl | rfl <;> assumption
  have hstep0 : runSampler { r_len := 0, data := 0, c_data := cd0, ctr := ctr0, led := led0 }
      [b0] = ({ r_len := 1, data := b0, c_data := cd0, ctr := ctr0, led := true }, []) := by
    simp only [runSampler]
    rw [clock_isr_step _ b0 h0 (by norm_num) (by norm_num)]
    norm_num
  have hstep_mid : runSampler { r_len := 1, data := b0, c_data := cd0, ctr := ctr0, led := true }
      [b1, b2, b3, b4, b5, b6, b7, b8] =
      ({ r_len := 9, data := [b1, b2, b3, b4, b5, b6, b7, b8].foldl (fun a b => 2 * a + b) b0,
         c_data := cd0, ctr := ctr0, led := true }, []) := by
    have h := runSampler_no_publish [b1, b2, b3, b4, b5, b6, b7, b8]
      { r_len := 1, data := b0, c_data := cd0, ctr := ctr0, led := true } hmid
      (by norm_num) (by norm_num) (by norm_num; omega)
    simpa using h
  have hbound : [b1, b2, b3, b4, b5, b6, b7, b8].foldl (fun a b => 2 * a + b) b0 < 512 := by
    have h := foldl_bits_lt [b1, b2, b3, b4, b5, b6, b7, b8] 1 b0 hmid (by omega)
    norm_num at h
    exact h
  have hstep9 : runSampler
      { r_len := 9, data := [b1, b2, b3, b4, b5, b6, b7, b8].foldl (fun a b => 2 * a + b) b0,
        c_data := cd0, ctr := ctr0, led := true } [b9] =
      ({ r_len := 0, data := 0,
         c_data := 2 * [b1, b2, b3, b4, b5, b6, b7, b8].foldl (fun a b => 2 * a + b) b0 + b9,
         ctr := ctr0 + 1, led := false },
       [2 * [b1, b2, b3, b4, b5, b6, b7, b8].foldl (fun a b => 2 * a + b) b0 + b9]) := by
    simp only [runSampler]
    rw [clock_isr_publish _ b9 h9 rfl (by dsimp only; omega)]
    rfl
  have e1 : ([b0, b1, b2, b3, b4, b5, b6, b7, b8, b9] : List Nat) =
      [b0] ++ ([b1, b2, b3, b4, b5, b6, b7, b8] ++ [b9]) := rfl
  rw [e1, runSampler_append, hstep0]
  dsimp only
  rw [runSampler_append, hstep_mid]
  dsimp only
  rw [hstep9]
  simp only [List.nil_append, List.foldl_cons, List.foldl_append, List.foldl_nil,
             Prod.mk.injEq, SamplerState.mk.injEq, List.cons.injEq, and_true, true_and]
  omega

/-- Witness for C3 at the bit sequence 1011110001 (value 753). -/
theorem sampler_ten_bits_witness :
    runSampler { r_len := 0, data := 0, c_data := 99, ctr := 41, led := false }
        [1, 0, 1, 1, 1, 1, 0, 0, 0, 1] =
      ({ r_len := 0, data := 0, c_data := 753, ctr := 42, led := false }, [753]) :=
  sampler_ten_bits 1 0 1 1 1 1 0 0 0 1
    (by decide) (by decide) (by decide) (by decide) (by decide)
    (by decide) (by decide) (by decide) (by decide) (by decide) 99 41 false

/-- C1 counterexample: processing the press frame `0x178` does perform a
store to the shared Completed Frame variable `c_data` (source line 99), so
the Processor is not write-free on that variable. -/
theorem processor_writes_completed_frame :
    ((processFrame envEx 0 0x178 0).events.contains SEv.writeCData) = true := by
  decide

/-- C1 (amended): the published frame's *value* is indeed never changed
between publishes: processing any frame value below `2 ^ 10` (every
publishable frame is a 10-bit value) leaves `c_data`'s value unchanged —
the processor's single store writes `c_data & 0xffe`, which equals the
current value because press frames have a zero low bit — and a
non-completing sampler step never touches `c_data`.  However, the
processor does execute one store to `c_data` per press frame. -/
theorem processor_preserves_frame_value :
    (∀ (k : KeyEnv) (ctr cd cm : Nat), cd < 1024 →
        (processFrame k ctr cd cm).c_data = cd) ∧
    (∀ (s : SamplerState) (pin : Nat), (clock_isr s pin).published = none →
        (clock_isr s pin).state.c_data = s.c_data) := by
  constructor
  · intro k ctr cd cm hcd
    rcases releaseFlag_cases cd with h | h
    · rw [processFrame_press k ctr cd cm h]
      exact even_land_ffe cd hcd h
    · rw [processFrame_release k ctr cd cm h]
  · intro s pin h
    simp only [clock_isr] at h ⊢
    by_cases h10 : (s.r_len + 1) % 4294967296 = 10
    · rw [if_pos h10] at h
      cases h
    · rw [if_neg h10]

/-- Witness for C1's amended theorem. -/
theorem processor_preserves_frame_value_witness :
    (processFrame envEx 0 0x178 0).c_data = 0x178 ∧
    (clock_isr { r_len := 0, data := 0, c_data := 7, ctr := 3, led := false } 1).state.c_data = 7 :=
  ⟨processor_preserves_frame_value.1 envEx 0 0x178 0 (by decide),
   processor_preserves_frame_value.2 { r_len := 0, data := 0, c_data := 7, ctr := 3, led := false } 1 (by decide)⟩

/-- C2 counterexample: in the processor's shared-access trace the store to
the last-seen counter `cctr` (line 79) comes strictly before the first load
of the Completed Frame (line 81), refuting "the last-seen value is updated
... only after the Completed Frame has been read". -/
theorem cctr_update_precedes_frame_read :
    (processFrame envEx 0 0x178 0).events.indexOf SEv.writeCctr <
      (processFrame envEx 0 0x178 0).events.indexOf SEv.readCData := by
  decide

/-- C2 (amended): in every frame-completing sampler execution the Completed
Frame is stored before the Event Counter is incremented; in every processor
iteration the shared-access trace begins with the counter load that observed
the change, a fresh counter load, the store of that value to the last-seen
counter, and only then the first load of the Completed Frame — i.e. the
frame is read only after the counter was observed to differ, but the
last-seen value is updated *before* (not after) the frame is read. -/
theorem handoff_access_order :
    (∀ (s : SamplerState) (pin : Nat), (clock_isr s pin).published.isSome = true →
        (clock_isr s pin).events = [SEv.writeCData, SEv.incCtr]) ∧
    (∀ (k : KeyEnv) (ctr cd cm : Nat),
        (processFrame k ctr cd cm).events.take 4 =
          [SEv.readCtr, SEv.readCtr, SEv.writeCctr, SEv.readCData]) := by
  constructor
  · intro s pin h
    simp only [clock_isr] at h ⊢
    by_cases h10 : (s.r_len + 1) % 4294967296 = 10
    · rw [if_pos h10]
    · rw [if_neg h10] at h
      cases h
  · intro k ctr cd cm
    rcases releaseFlag_cases cd with h | h
    · rw [processFrame_press k ctr cd cm h]
      rfl
    · rw [processFrame_release k ctr cd cm h]
      rfl

/-- Witness for C2's amended theorem. -/
theorem handoff_access_order_witness :
    (clock_isr { r_len := 9, data := 5, c_data := 7, ctr := 3, led := true } 1).events =
      [SEv.writeCData, SEv.incCtr] ∧
    (processFrame envEx 0 0x179 0).events.take 4 =
      [SEv.readCtr, SEv.readCtr, SEv.writeCctr, SEv.readCData] :=
  ⟨handoff_access_order.1 { r_len := 9, data := 5, c_data := 7, ctr := 3, led := true } 1 (by decide),
   handoff_access_order.2 envEx 0 0x179 0⟩

/-- The modifier state computed by a processor iteration is the fold of the
modifier-table loop, on both branches. -/
lemma processFrame_curr_mod (k : KeyEnv) (ctr cd cm : Nat) :
    (processFrame k ctr cd cm).curr_mod =
      (modScan (releaseFlag cd != 0) (scanCode cd) (xt_kb_modmap k) cm).fst := by
  rcases releaseFlag_cases cd with h | h
  · rw [processFrame_press k ctr cd cm h, h]
    rfl
  · rw [processFrame_release k ctr cd cm h, h]
    rfl

/-- The regular-table loop returns the first matching entry (`List.find?`). -/
lemma regScan_first (key : Nat) (t : List (Nat × Nat)) :
    (regScan key t).fst = (t.find? fun p => p.1 == key).map Prod.snd := by
  induction t with
  | nil => rfl
  | cons p rest ih =>
    obtain ⟨o, n⟩ := p
    by_cases h : o = key
    · simp [regScan, List.find?, h]
    · have hbeq : (o == key) = false := beq_eq_false_iff_ne.mpr h
      simp [regScan, List.find?, h, hbeq, ih]

/-- The modifier-table loop processes the whole table: appending further
entries composes their effect after the earlier ones. -/
lemma modScan_append (rel : Bool) (key : Nat) (xs ys : List (Nat × Nat)) :
    ∀ cm : Nat, (modScan rel key (xs ++ ys) cm).fst =
      (modScan rel key ys (modScan rel key xs cm).fst).fst := by
  induction xs with
  | nil => intro cm; rfl
  | cons p rest ih =>
    obtain ⟨o, n⟩ := p
    intro cm
    simp only [List.cons_append, modScan]
    exact ih _

/-- The modifier-table loop never sets a bit that is not set in the current
state or in one of the table's values. -/
lemma modScan_sub (rel : Bool) (key : Nat) (t : List (Nat × Nat)) (U : Nat) :
    ∀ cm : Nat, (∀ p ∈ t, ∀ i, (p.2).testBit i = true → U.testBit i = true) →
      (∀ i, cm.testBit i = true → U.testBit i = true) →
      ∀ i, ((modScan rel key t cm).fst).testBit i = true → U.testBit i = true := by
  induction t with
  | nil =>
    intro cm _ hcm i h
    exact hcm i h
  | cons p rest ih =>
    obtain ⟨o, n⟩ := p
    intro cm ht hcm i hbit
    refine ih (if o = key then (if rel then cm ^^^ (cm &&& n) else cm ||| n) else cm)
      (fun q hq => ht q (List.mem_cons_of_mem _ hq)) ?_ i hbit
    intro j hj
    by_cases ho : o = key
    · rw [if_pos ho] at hj
      cases rel with
      | true =>
        rw [if_pos rfl] at hj
        rw [testBit_clear] at hj
        exact hcm j (by
          rcases Bool.and_eq_true_iff.mp hj with ⟨h1, _⟩
          exact h1)
      | false =>
        rw [if_neg (by simp)] at hj
        rw [Nat.testBit_or] at hj
        rcases Bool.or_eq_true_iff.mp hj with h1 | h2
        · exact hcm j h1
        · exact ht (o, n) (List.mem_cons_self _ _) j h2
    · rw [if_neg ho] at hj
      exact hcm j hj

/-- C5: for every entry of the Modifier Translation Table whose scan code
matches the frame, a press frame ORs the entry's value into Modifier State
(and doing so twice is idempotent), a release frame clears exactly the
entry's bits; for a scan code not in the table, Modifier State is
unchanged. -/
theorem modifier_state_update :
    (∀ (k : KeyEnv) (ctr cd cm : Nat) (p : Nat × Nat), p ∈ xt_kb_modmap k →
        p.1 = scanCode cd →
        (releaseFlag cd = 0 →
          (∀ i, ((processFrame k ctr cd cm).curr_mod).testBit i
              = (cm.testBit i || (p.2).testBit i)) ∧
          (processFrame k ctr cd (processFrame k ctr cd cm).curr_mod).curr_mod
              = (processFrame k ctr cd cm).curr_mod) ∧
        (releaseFlag cd = 1 →
          ∀ i, ((processFrame k ctr cd cm).curr_mod).testBit i
              = (cm.testBit i && !((p.2).testBit i)))) ∧
    (∀ (k : KeyEnv) (ctr cd cm : Nat), scanCode cd ∉ (xt_kb_modmap k).map Prod.fst →
        (processFrame k ctr cd cm).curr_mod = cm) := by
  constructor
  · intro k ctr cd cm p hp hkey
    simp only [xt_kb_modmap, List.mem_cons, List.not_mem_nil, or_false] at hp
    rcases hp with rfl | rfl | rfl | rfl
    · constructor
      · intro h0
        have hrel : (releaseFlag cd != 0) = false := by rw [h0]; rfl
        constructor
        · intro i
          rw [processFrame_curr_mod, hrel, ← hkey]
          simp [modScan, xt_kb_modmap, Nat.testBit_or]
        · rw [processFrame_curr_mod k ctr cd ((processFrame k ctr cd cm).curr_mod),
              processFrame_curr_mod k ctr cd cm, hrel, ← hkey]
          simp [modScan, xt_kb_modmap, Nat.or_assoc, Nat.or_self]
      · intro h1 i
        have hrel : (releaseFlag cd != 0) = true := by rw [h1]; rfl
        rw [processFrame_curr_mod, hrel, ← hkey]
        simp [modScan, xt_kb_modmap]
        cases hx : cm.testBit i <;> simp [hx]
    · constructor
      · intro h0
        have hrel : (releaseFlag cd != 0) = false := by rw [h0]; rfl
        constructor
        · intro i
          rw [processFrame_curr_mod, hrel, ← hkey]
          simp [modScan, xt_kb_modmap, Nat.testBit_or]
        · rw [processFrame_curr_mod k ctr cd ((processFrame k ctr cd cm).curr_mod),
              processFrame_curr_mod k ctr cd cm, hrel, ← hkey]
          simp [modScan, xt_kb_modmap, Nat.or_assoc, Nat.or_self]
      · intro h1 i
        have hrel : (releaseFlag cd != 0) = true := by rw [h1]; rfl
        rw [processFrame_curr_mod, hrel, ← hkey]
        simp [modScan, xt_kb_modmap]
        cases hx : cm.testBit i <;> simp [hx]
    · constructor
      · intro h0
        have hrel : (releaseFlag cd != 0) = false := by rw [h0]; rfl
        constructor
        · intro i
          rw [processFrame_curr_mod, hrel, ← hkey]
          simp [modScan, xt_kb_modmap, Nat.testBit_or]
        · rw [processFrame_curr_mod k ctr cd ((processFrame k ctr cd cm).curr_mod),
              processFrame_curr_mod k ctr cd cm, hrel, ← hkey]
          simp [modScan, xt_kb_modmap, Nat.or_assoc, Nat.or_self]
      · intro h1 i
        have hrel : (releaseFlag cd != 0) = true := by rw [h1]; rfl
        rw [processFrame_curr_mod, hrel, ← hkey]
        simp [modScan, xt_kb_modmap]
        cases hx : cm.testBit i <;> simp [hx]
    · constructor
      · intro h0
        have hrel : (releaseFlag cd != 0) = false := by rw [h0]; rfl
        constructor
        · intro i
          rw [processFrame_curr_mod, hrel, ← hkey]
          simp [modScan, xt_kb_modmap, Nat.testBit_or]
        · rw [processFrame_curr_mod k ctr cd ((processFrame k ctr cd cm).curr_mod),
              processFrame_curr_mod k ctr cd cm, hrel, ← hkey]
          simp [modScan, xt_kb_modmap, Nat.or_assoc, Nat.or_self]
      · intro h1 i
        have hrel : (releaseFlag cd != 0) = true := by rw [h1]; rfl
        rw [processFrame_curr_mod, hrel, ← hkey]
        simp [modScan, xt_kb_modmap]
        cases hx : cm.testBit i <;> simp [hx]
  · intro k ctr cd cm hno
    rw [processFrame_curr_mod]
    exact modScan_no_match _ _ _ _ hno

/-- Witness for C5: pressing left-alt (frame `0x11C`) sets its bit, releasing
it (frame `0x11D`) clears it, a regular frame leaves the state unchanged. -/
theorem modifier_state_update_witness :
    ((processFrame envEx 0 0x11C 0).curr_mod).testBit 2
        = (Nat.testBit 0 2 || Nat.testBit 4 2) ∧
    ((processFrame envEx 0 0x11D 5).curr_mod).testBit 2
        = (Nat.testBit 5 2 && !(Nat.testBit 4 2)) ∧
    (processFrame envEx 0 0x102 5).curr_mod = 5 :=
  ⟨((modifier_state_update.1 envEx 0 0x11C 0 (0x11C, envEx.MODIFIERKEY_LEFT_ALT)
      (by decide) (by decide)).1 (by decide)).1 2,
   (modifier_state_update.1 envEx 0 0x11D 5 (0x11C, envEx.MODIFIERKEY_LEFT_ALT)
      (by decide) (by decide)).2 (by decide) 2,
   modifier_state_update.2 envEx 0 0x102 5 (by decide)⟩

/-- C6: every processed frame emits exactly one "set modifiers" report, as
the first transport call, immediately flushed, carrying the low byte of the
Modifier State current at that point; frames whose scan code is not in the
Modifier Table leave that state equal to the prior state. -/
theorem modifier_resync_every_frame :
    ∀ (k : KeyEnv) (ctr cd cm : Nat),
      ((processFrame k ctr cd cm).calls.take 2 =
        [UsbCall.set_modifier ((processFrame k ctr cd cm).curr_mod &&& 0xff),
         UsbCall.send_now]) ∧
      ((processFrame k ctr cd cm).calls.countP
          (fun c => match c with | UsbCall.set_modifier _ => true | _ => false) = 1) ∧
      (scanCode cd ∉ (xt_kb_modmap k).map Prod.fst →
        (processFrame k ctr cd cm).curr_mod = cm) := by
  intro k ctr cd cm
  rcases releaseFlag_cases cd with h | h
  · rw [processFrame_press k ctr cd cm h]
    refine ⟨rfl, ?_, ?_⟩
    · by_cases hk : keynameOf k (scanCode cd) ≠ 0
      · rw [if_pos hk]
        rfl
      · rw [if_neg hk]
        rfl
    · intro hno
      exact modScan_no_match _ _ _ _ hno
  · rw [processFrame_release k ctr cd cm h]
    exact ⟨rfl, rfl, fun hno => modScan_no_match _ _ _ _ hno⟩

/-- Witness for C6 on a regular key frame. -/
theorem modifier_resync_every_frame_witness :
    (processFrame envEx 0 0x102 5).calls.take 2 =
      [UsbCall.set_modifier ((processFrame envEx 0 0x102 5).curr_mod &&& 0xff),
       UsbCall.send_now] ∧
    (processFrame envEx 0 0x102 5).curr_mod = 5 :=
  ⟨(modifier_resync_every_frame envEx 0 0x102 5).1,
   (modifier_resync_every_frame envEx 0 0x102 5).2.2 (by decide)⟩

/-- C7 counterexample: on a modifier table with a duplicated scan code, the
modifier loop (which has no `break`) applies *every* matching entry, so the
first matching entry alone does not determine the outcome: with table
`[(5, 1), (5, 2)]` and key `5`, a press yields `0 ||| 1 ||| 2 = 3`, while the
first matching entry alone yields `1`. -/
theorem modmap_not_first_match_only :
    (modScan false 5 [(5, 1), (5, 2)] 0).fst ≠ (modScan false 5 [(5, 1)] 0).fst := by
  decide

/-- C7 (amended): in the Regular Table lookup the first matching entry alone
determines the result (the loop breaks at the first match, i.e. it computes
`List.find?`); the Modifier Table loop has no early exit, so every matching
entry is applied in table order (appended entries act after earlier ones);
the program's actual tables are duplicate-free, so for them at most one
entry ever matches and the distinction is unobservable. -/
theorem lookup_order_semantics :
    (∀ (key : Nat) (t : List (Nat × Nat)),
        (regScan key t).fst = (t.find? fun p => p.1 == key).map Prod.snd) ∧
    (∀ (rel : Bool) (key : Nat) (xs ys : List (Nat × Nat)) (cm : Nat),
        (modScan rel key (xs ++ ys) cm).fst =
          (modScan rel key ys (modScan rel key xs cm).fst).fst) ∧
    (∀ k : KeyEnv, ((xt_kb_map k).map Prod.fst).Nodup ∧
        ((xt_kb_modmap k).map Prod.fst).Nodup) := by
  refine ⟨regScan_first, fun rel key xs ys cm => modScan_append rel key xs ys cm, ?_⟩
  intro k
  constructor
  · rw [show (xt_kb_map k).map Prod.fst = (xt_kb_map envEx).map Prod.fst from rfl]
    decide
  · rw [show (xt_kb_modmap k).map Prod.fst = (xt_kb_modmap envEx).map Prod.fst from rfl]
    decide

set_option maxRecDepth 8192 in
/-- C8: for every 10-bit frame value the Release Flag (`frame & 1`) is the
frame's lowest bit and the Scan Code (`frame & 0xffe`) is the frame with
only its lowest bit cleared; and the processor's transport output and
modifier state depend on the frame only through this release flag and scan
code — they are the only lookup key used for both tables. -/
theorem scan_code_extraction :
    (∀ cd : Nat, cd < 1024 →
        releaseFlag cd = cd % 2 ∧ scanCode cd = 2 * (cd / 2)) ∧
    (∀ (k : KeyEnv) (ctr cd cd' cm : Nat), releaseFlag cd = releaseFlag cd' →
        scanCode cd = scanCode cd' →
        (processFrame k ctr cd cm).calls = (processFrame k ctr cd' cm).calls ∧
        (processFrame k ctr cd cm).curr_mod = (processFrame k ctr cd' cm).curr_mod) := by
  constructor
  · decide
  · intro k ctr cd cd' cm h1 h2
    rcases releaseFlag_cases cd with h | h
    · have h' : releaseFlag cd' = 0 := by omega
      rw [processFrame_press k ctr cd cm h, processFrame_press k ctr cd' cm h', h2]
      exact ⟨rfl, rfl⟩
    · have h' : releaseFlag cd' = 1 := by omega
      rw [processFrame_release k ctr cd cm h, processFrame_release k ctr cd' cm h', h2]
      exact ⟨rfl, rfl⟩

/-- Witness for C8: frames `0x1178` and `0x178` share release flag and scan
code (they differ only in a bit above the mask) and are processed alike. -/
theorem scan_code_extraction_witness :
    (releaseFlag 0x178 = 0x178 % 2 ∧ scanCode 0x178 = 2 * (0x178 / 2)) ∧
    (processFrame envEx 0 0x1178 0).calls = (processFrame envEx 0 0x178 0).calls :=
  ⟨scan_code_extraction.1 0x178 (by decide),
   (scan_code_extraction.2 envEx 0 0x1178 0x178 0 (by decide) (by decide)).1⟩

/-- C4: a press frame whose scan code has a (non-zero) mapping in the
Regular Table emits exactly the modifier resync followed by two key-report
calls — the mapped 8-bit keycode pressed, then the key slot cleared — each
flushed; a release frame (scan code not a modifier) and a press frame with
no mapping (or a mapping whose stored 8-bit value is 0) emit no key-report
calls. -/
theorem regular_key_reports :
    (∀ (k : KeyEnv) (ctr cd cm n : Nat), releaseFlag cd = 0 →
        (regScan (scanCode cd) (xt_kb_map k)).fst = some n → n % 256 ≠ 0 →
        (processFrame k ctr cd cm).calls =
          [UsbCall.set_modifier ((processFrame k ctr cd cm).curr_mod &&& 0xff),
           UsbCall.send_now, UsbCall.set_key1 (n % 256), UsbCall.send_now,
           UsbCall.set_key1 0, UsbCall.send_now]) ∧
    (∀ (k : KeyEnv) (ctr cd cm : Nat), releaseFlag cd = 1 →
        scanCode cd ∉ (xt_kb_modmap k).map Prod.fst →
        keyCalls (processFrame k ctr cd cm).calls = []) ∧
    (∀ (k : KeyEnv) (ctr cd cm : Nat), releaseFlag cd = 0 →
        keynameOf k (scanCode cd) = 0 →
        keyCalls (processFrame k ctr cd cm).calls = []) := by
  refine ⟨?_, ?_, ?_⟩
  · intro k ctr cd cm n h0 hlook hnz
    have hkn : keynameOf k (scanCode cd) = n % 256 := by
      unfold keynameOf
      rw [hlook]
    rw [processFrame_press k ctr cd cm h0]
    dsimp only
    rw [hkn, if_pos hnz]
    rfl
  · intro k ctr cd cm h1 _hno
    rw [processFrame_release k ctr cd cm h1]
    rfl
  · intro k ctr cd cm h0 hkn
    rw [processFrame_press k ctr cd cm h0]
    dsimp only
    rw [hkn, if_neg (by simp)]
    rfl

/-- Witness for C4: press of `0x178` (mapped) emits press/release of the
mapped code; release `0x179` and the zero-mapped press `0x1D4` emit no key
reports. -/
theorem regular_key_reports_witness :
    (processFrame envEx 0 0x178 0).calls =
      [UsbCall.set_modifier ((processFrame envEx 0 0x178 0).curr_mod &&& 0xff),
       UsbCall.send_now, UsbCall.set_key1 (4 % 256), UsbCall.send_now,
       UsbCall.set_key1 0, UsbCall.send_now] ∧
    keyCalls (processFrame envEx 0 0x179 0).calls = [] ∧
    keyCalls (processFrame envEx 0 0x1D4 0).calls = [] :=
  ⟨regular_key_reports.1 envEx 0 0x178 0 4 (by decide) (by decide) (by decide),
   regular_key_reports.2.1 envEx 0 0x179 0 (by decide) (by decide),
   regular_key_reports.2.2 envEx 0 0x1D4 0 (by decide) (by decide)⟩

/-- C9: the looked-up keycode is stored into the 8-bit `keyname`, so the
emitted press keycode is the table value reduced modulo 256, and a mapped
value whose low byte is 0 — such as the table entry `(0x1D4, 0)` — counts as
"no mapping" and produces no key report. -/
theorem keyname_truncation :
    (∀ (k : KeyEnv) (ctr cd cm n : Nat), releaseFlag cd = 0 →
        (regScan (scanCode cd) (xt_kb_map k)).fst = some n →
        keyCalls (processFrame k ctr cd cm).calls =
          (if n % 256 ≠ 0 then [UsbCall.set_key1 (n % 256), UsbCall.set_key1 0]
           else [])) ∧
    (∀ k : KeyEnv, (regScan 0x1D4 (xt_kb_map k)).fst = some 0) ∧
    (∀ (k : KeyEnv) (ctr cm : Nat), keyCalls (processFrame k ctr 0x1D4 cm).calls = []) := by
  refine ⟨?_, ?_, ?_⟩
  · intro k ctr cd cm n h0 hlook
    have hkn : keynameOf k (scanCode cd) = n % 256 := by
      unfold keynameOf
      rw [hlook]
    rw [processFrame_press k ctr cd cm h0]
    dsimp only
    rw [hkn]
    by_cases hz : n % 256 ≠ 0
    · rw [if_pos hz, if_pos hz]
      rfl
    · rw [if_neg hz, if_neg hz]
      rfl
  · intro k
    rfl
  · intro k ctr cm
    have h0 : releaseFlag 0x1D4 = 0 := rfl
    have hkn : keynameOf k (scanCode 0x1D4) = 0 := rfl
    rw [processFrame_press k ctr 0x1D4 cm h0]
    dsimp only
    rw [hkn, if_neg (by simp)]
    rfl

/-- Witness for C9 at the mapped press frame `0x178`. -/
theorem keyname_truncation_witness :
    keyCalls (processFrame envEx 0 0x178 0).calls =
      (if (4 : Nat) % 256 ≠ 0 then [UsbCall.set_key1 (4 % 256), UsbCall.set_key1 0]
       else []) :=
  keyname_truncation.1 envEx 0 0x178 0 4 (by decide) (by decide)

/-- C10: starting from the power-on Modifier State 0, after processing any
sequence of frames every set bit of the Modifier State is a bit of the
bitwise OR of the four modifier-table values; and the value handed to the
transport is always the low byte of the current Modifier State. -/
theorem modifier_state_bounded :
    (∀ (k : KeyEnv) (frames : List Nat) (i : Nat),
        ((runFrames k frames 0).testBit i) = true → ((modUnion k).testBit i) = true) ∧
    (∀ (k : KeyEnv) (ctr cd cm : Nat),
        (processFrame k ctr cd cm).calls.head? =
          some (UsbCall.set_modifier ((processFrame k ctr cd cm).curr_mod &&& 0xff))) := by
  constructor
  · have main : ∀ (k : KeyEnv) (frames : List Nat) (cm : Nat),
        (∀ i, cm.testBit i = true → (modUnion k).testBit i = true) →
        ∀ i, (runFrames k frames cm).testBit i = true → (modUnion k).testBit i = true := by
      intro k frames
      induction frames with
      | nil =>
        intro cm hcm i h
        exact hcm i h
      | cons cd rest ih =>
        intro cm hcm i h
        refine ih ((processFrame k 0 cd cm).curr_mod) ?_ i h
        intro j hj
        rw [processFrame_curr_mod] at hj
        refine modScan_sub _ _ _ _ cm ?_ hcm j hj
        intro p hp j2 hpj
        simp only [xt_kb_modmap, List.mem_cons, List.not_mem_nil, or_false] at hp
        rcases hp with rfl | rfl | rfl | rfl <;>
          simp_all [modUnion, Nat.testBit_or]
    intro k frames i h
    refine main k frames 0 ?_ i h
    intro j hj
    rw [Nat.zero_testBit] at hj
    cases hj
  · intro k ctr cd cm
    rcases releaseFlag_cases cd with h | h
    · rw [processFrame_press k ctr cd cm h]
      rfl
    · rw [processFrame_release k ctr cd cm h]
      rfl

/-- Witness for C10: after pressing left-alt its bit (bit 2 in the example
environment) is inside the union of the modifier-table values. -/
theorem modifier_state_bounded_witness :
    (modUnion envEx).testBit 2 = true ∧
    (processFrame envEx 0 0x11C 0).calls.head? =
      some (UsbCall.set_modifier ((processFrame envEx 0 0x11C 0).curr_mod &&& 0xff)) :=
  ⟨modifier_state_bounded.1 envEx [0x11C] 2 (by decide),
   modifier_state_bounded.2 envEx 0 0x11C 0⟩
